import Mathlib

/-!
Verification development for the ai-medical-agent repository.

The repository's frontend (React) sources are embedded directly from
`src/frontend` and `src/unnamed/part_002`.  The backend conversation/booking
core (FastAPI, `backend/app`) is not present in the source tree; every
definition whose doc comment starts with `Modelled from the spec:` is a
faithful translation of the specification's description of that missing
backend component.
-/

namespace MedAgent

/-! ## Definitions: AvailabilityLedger -/

/-- A ledger slot key: `(date, time)`, e.g. `("2025-01-05", "10:00")`. -/
abbrev Slot := String × String

/-- Modelled from the spec: the AvailabilityLedger state (§3, §6) — the
reference shape of `availability.json`, a date→time→boolean map flattened to
an association list; `true` means the slot is free, `false` means taken. -/
abbrev Ledger := List (Slot × Bool)

/-- Modelled from the spec: looking a slot up in the ledger map. -/
def lookupSlot : Ledger → Slot → Option Bool
  | [], _ => none
  | (k, v) :: rest, s => if k = s then some v else lookupSlot rest s

/-- Modelled from the spec: writing a slot's free/taken flag in the ledger
map (absent keys are left absent — the ledger's key set is fixed at load). -/
def setSlot : Ledger → Slot → Bool → Ledger
  | [], _, _ => []
  | (k, v) :: rest, s, b => if k = s then (k, b) :: rest else (k, v) :: setSlot rest s b

/-- Modelled from the spec: `reserve(date, time) -> success:boolean`, the
ledger's only mutator (§4.3), implemented as a single atomic check-and-set
(§5): read the current `free` state and flip it to `taken` as one indivisible
operation.  Returns the success flag and the updated ledger. -/
def reserve (L : Ledger) (s : Slot) : Bool × Ledger :=
  match lookupSlot L s with
  | some true => (true, setSlot L s false)
  | _ => (false, L)

/-- Modelled from the spec: a sequence of `reserve` calls all targeting the
same slot.  Because `reserve` is a single atomic check-and-set (§5), every
concurrent execution of such calls is linearized into some sequential order;
this function runs `n` of the calls in that order and collects each call's
success flag. -/
def runReserves : Ledger → Slot → Nat → List Bool × Ledger
  | L, _, 0 => ([], L)
  | L, s, n + 1 =>
    let p := reserve L s
    let q := runReserves p.2 s n
    (p.1 :: q.1, q.2)

/-! ## Definitions: ServiceCatalog and BookingStore -/

/-- Modelled from the spec: a Service record (§3):
`{id, name, price, duration_minutes, tags[]}`, immutable after load. -/
structure Service where
  id : String
  name : String
  price : Nat
  duration_minutes : Nat
  tags : List String
deriving DecidableEq

/-- Modelled from the spec: a Booking record (§3):
`{id, patient_name, dob, service_id, date, time, status, price}`. -/
structure Booking where
  id : String
  patient_name : String
  dob : String
  service_id : String
  date : String
  time : String
  status : String
  price : Nat
deriving DecidableEq

/-- Modelled from the spec: the data needed to create a Booking once the
identity fields are complete (§4.4). -/
structure BookingRequest where
  patient_name : String
  dob : String
  service_id : String
  price : Nat
deriving DecidableEq

/-- Modelled from the spec: the Booking `id` is derived deterministically from
date+time+creation instant to ensure uniqueness (§3). -/
def mkBookingId (date time instant : String) : String :=
  "BK-" ++ date ++ time ++ instant

/-- The slot a Booking references. -/
def bookingSlot (b : Booking) : Slot := (b.date, b.time)

/-- Modelled from the spec: the state owned by the core's stores — the
read-only ServiceCatalog, the AvailabilityLedger, and the append-only
BookingStore record list (§2, §3). -/
structure CoreState where
  catalog : List Service
  ledger : Ledger
  bookings : List Booking
deriving DecidableEq

/-- Modelled from the spec: releasing a reserved slot back to free; used only
as the compensating step when `create` fails after `reserve` succeeded (§5,
§7) — the core never otherwise exposes a way to re-open a slot (§4.3). -/
def release (L : Ledger) (s : Slot) : Ledger := setSlot L s true

/-- Modelled from the spec: the outcome of a booking-commit attempt, matching
the error taxonomy of §7. -/
inductive CommitResult where
  | committed (b : Booking)
  | slotUnavailable
  | slotReservedButBookingFailed
deriving DecidableEq

/-- Modelled from the spec: the Booking record written by the BookingStore
`create` for a given slot and identity data (§3, §4.4). -/
def mkBooking (s : Slot) (req : BookingRequest) (instant : String) : Booking :=
  { id := mkBookingId s.1 s.2 instant
    patient_name := req.patient_name
    dob := req.dob
    service_id := req.service_id
    date := s.1
    time := s.2
    status := "confirmed"
    price := req.price }

/-- Modelled from the spec: the two-step booking commit (§5): `reserve` then
`create`, effectively atomic from the caller's perspective.  `createOk` is the
fallible BookingStore `create` collaborator's success flag; on `create`
failure the reserve is compensated (slot released) before the error is
returned. -/
def commitBooking (st : CoreState) (s : Slot) (req : BookingRequest)
    (instant : String) (createOk : Bool) : CommitResult × CoreState :=
  match reserve st.ledger s with
  | (true, L') =>
    if createOk then
      (CommitResult.committed (mkBooking s req instant),
       { st with ledger := L', bookings := st.bookings ++ [mkBooking s req instant] })
    else
      (CommitResult.slotReservedButBookingFailed, { st with ledger := release L' s })
  | (false, _) => (CommitResult.slotUnavailable, st)

/-- Modelled from the spec: the booking-store invariant of §3/§8 — every
committed Booking references a slot that is `taken` in the ledger, and no two
Bookings reference the same slot. -/
def BookingsInv (st : CoreState) : Prop :=
  (∀ b ∈ st.bookings, lookupSlot st.ledger (bookingSlot b) = some false) ∧
  (st.bookings.map bookingSlot).Nodup

/-! ## Definitions: the core's ledger-mutating operations as a step system -/

/-- Modelled from the spec: the operations through which this core touches the
AvailabilityLedger — a bare atomic `reserve` (§4.3) and the two-step booking
commit (§5).  `query_open`/`list_open_slots` and `list_services` are
read-only and do not appear as steps. -/
inductive CoreOp where
  | reserveOp (s : Slot)
  | commitOp (s : Slot) (req : BookingRequest) (instant : String) (createOk : Bool)

/-- Modelled from the spec: the state transition performed by one core
operation. -/
def applyOp (st : CoreState) : CoreOp → CoreState
  | CoreOp.reserveOp s => { st with ledger := (reserve st.ledger s).2 }
  | CoreOp.commitOp s req instant createOk => (commitBooking st s req instant createOk).2

/-- Whether a slot is `taken` in the ledger, as a Boolean observation. -/
def isTaken (L : Ledger) (s : Slot) : Bool := decide (lookupSlot L s = some false)

/-- The number of `free → taken` transitions a given slot undergoes along a
run of core operations from a given state. -/
def countFreeToTaken (s : Slot) : CoreState → List CoreOp → Nat
  | _, [] => 0
  | st, op :: ops =>
    (if isTaken st.ledger s = false ∧ isTaken (applyOp st op).ledger s = true then 1 else 0)
    + countFreeToTaken s (applyOp st op) ops

/-- Modelled from the spec: `list_services() -> sequence of Service` (§6) — a
read-only view of the catalog loaded at process start. -/
def list_services (st : CoreState) : List Service := st.catalog

/-! ## Definitions: IntentClassifier -/

/-- Modelled from the spec: the discrete intent labels of §4.1. -/
inductive Intent where
  | greeting
  | symptoms
  | service_inquiry
  | book_appointment
  | provide_slot
  | provide_identity
  | confirm
  | unknown
deriving DecidableEq

/-- Modelled from the spec: the conversation stages of §4.2, including the
terminal `ABANDONED` state reserved for an external timeout collaborator. -/
inductive Stage where
  | GREETING
  | SYMPTOM_INTAKE
  | SERVICE_PROPOSED
  | SLOT_SELECTION
  | IDENTITY_COLLECTION
  | CONFIRMED
  | ABANDONED
deriving DecidableEq

/-- Whether the character list `hay` starts with the character list `n`. -/
def startsWithList : List Char → List Char → Bool
  | _, [] => true
  | [], _ :: _ => false
  | h :: t, n :: ns => (h = n) && startsWithList t ns

/-- Whether the character list `needle` occurs as a contiguous run inside
`hay`. -/
def containsSub : List Char → List Char → Bool
  | [], needle => needle.isEmpty
  | h :: t, needle => startsWithList (h :: t) needle || containsSub t needle

/-- Keyword-substring test on the lowercased utterance, the detection
primitive named by the spec's design notes (§9: keyword-substring intent
detection). -/
def occursLower (keyword utterance : String) : Bool :=
  containsSub (utterance.data.map Char.toLower) keyword.data

/-- Modelled from the spec: one rule of the rule-based IntentClassifier
(§4.1, §9): a set of keyword substrings, an optional stage the rule is
restricted to (context sensitivity), and the intent it yields. -/
structure ClassifierRule where
  keywords : List String
  stageCond : Option Stage
  intent : Intent

/-- Whether a rule's stage restriction admits the current stage. -/
def stageOk (cond : Option Stage) (st : Stage) : Bool :=
  match cond with
  | none => true
  | some c => decide (c = st)

/-- Whether a classifier rule matches the utterance in the given stage. -/
def ruleMatches (r : ClassifierRule) (utterance : String) (st : Stage) : Bool :=
  stageOk r.stageCond st && r.keywords.any (fun k => occursLower k utterance)

/-- Modelled from the spec: `classify(utterance, session) -> Intent` (§4.1):
synchronous, deterministic and side-effect-free; the first matching rule wins
and on failure to match any rule the classifier returns `unknown`. -/
def classify (rules : List ClassifierRule) (utterance : String) (st : Stage) : Intent :=
  match rules.find? (fun r => ruleMatches r utterance st) with
  | some r => r.intent
  | none => Intent.unknown

/-- Modelled from the spec: a concrete rule table for the rule-based
classifier (§4.1's intent set, §9's keyword-substring detection; context
sensitivity restricts "yes" to the stage being confirmed). -/
def defaultRules : List ClassifierRule :=
  [ ⟨["yes", "sure", "okay", "sounds good"], some Stage.SERVICE_PROPOSED, Intent.confirm⟩,
    ⟨["yes", "correct", "confirm"], some Stage.IDENTITY_COLLECTION, Intent.confirm⟩,
    ⟨["hello", "good morning", "good afternoon"], none, Intent.greeting⟩,
    ⟨["book", "appointment", "schedule"], none, Intent.book_appointment⟩,
    ⟨["what services", "which services", "price", "cost", "offer"], none,
      Intent.service_inquiry⟩,
    ⟨["pain", "problem", "hurt", "ache", "sick", "symptom", "heart", "stomach", "skin",
      "rash", "blood"], none, Intent.symptoms⟩,
    ⟨["january", "february", "monday", "tuesday", "at ", ":00", "am", "pm"],
      some Stage.SLOT_SELECTION, Intent.provide_slot⟩,
    ⟨["my name is", "born", "birth"], some Stage.IDENTITY_COLLECTION,
      Intent.provide_identity⟩ ]

/-! ## Definitions: service matching -/

/-- Whether a string is an element of a string list. -/
def memStr : String → List String → Bool
  | _, [] => false
  | s, t :: ts => (s = t) || memStr s ts

/-- Drop spaces and cut the next word from a lowercased character list;
auxiliary to `tokenize`. -/
def wordsAux : List Char → List Char → List String
  | [], acc => if acc.isEmpty then [] else [String.mk acc.reverse]
  | c :: cs, acc =>
    if c = ' ' then
      if acc.isEmpty then wordsAux cs []
      else String.mk acc.reverse :: wordsAux cs []
    else wordsAux cs (c :: acc)

/-- Modelled from the spec: tokenizing the caller's symptom description
(§4.2): lowercase it and split it on spaces. -/
def tokenize (s : String) : List String :=
  wordsAux (s.data.map Char.toLower) []

/-- Modelled from the spec: score a Service by the count of tag-token
overlaps (§4.2). -/
def tagScore (svc : Service) (toks : List String) : Nat :=
  (svc.tags.filter (fun t => memStr t toks)).length

/-- Modelled from the spec: pick the highest-scoring service, ties broken by
catalog order — the earlier entry wins (§4.2). -/
def bestService : List Service → List String → Option (Service × Nat)
  | [], _ => none
  | c :: rest, toks =>
    match bestService rest toks with
    | none => some (c, tagScore c toks)
    | some (b, bsc) =>
      if bsc ≤ tagScore c toks then some (c, tagScore c toks) else some (b, bsc)

/-- Modelled from the spec: the general-practice default service used as the
zero-score fallback (§4.2), found by its catalog id. -/
def generalPracticeDefault (catalog : List Service) : Option Service :=
  catalog.find? (fun svc => svc.id == "general_practice")

/-- Modelled from the spec: the outcome of service matching at stage
GREETING — either a proposed service or a request for more detail (§4.2). -/
inductive MatchOutcome where
  | proposed (svc : Service)
  | askMoreDetail
deriving DecidableEq

/-- Modelled from the spec: the service-matching algorithm (§4.2): tokenize
the symptom description, score each Service by tag-token overlap, pick the
highest score with ties broken by catalog order; no match above zero falls
back to the general-practice default service if one exists, else asks for
more detail. -/
def matchSymptoms (catalog : List Service) (utterance : String) : MatchOutcome :=
  match bestService catalog (tokenize utterance) with
  | some (svc, sc) =>
    if 0 < sc then MatchOutcome.proposed svc
    else
      match generalPracticeDefault catalog with
      | some g => MatchOutcome.proposed g
      | none => MatchOutcome.askMoreDetail
  | none =>
    match generalPracticeDefault catalog with
    | some g => MatchOutcome.proposed g
    | none => MatchOutcome.askMoreDetail

/-- Modelled from the spec: the service catalog of the repository's
`services.json` (docs in `src/unnamed/part_003`), with the keyword tags the
spec requires each Service to carry for matching (§2, §3). -/
def defaultCatalog : List Service :=
  [ { id := "cardiology_consultation", name := "Cardiology Consultation", price := 120,
      duration_minutes := 45, tags := ["heart", "cardiac", "chest"] },
    { id := "gastroenterology", name := "Gastroenterology Consultation", price := 110,
      duration_minutes := 40, tags := ["stomach", "digestive", "intestinal"] },
    { id := "blood_analysis", name := "Blood Analysis", price := 50,
      duration_minutes := 20, tags := ["blood", "test", "screening"] },
    { id := "dermatology", name := "Dermatology Consultation", price := 100,
      duration_minutes := 30, tags := ["skin", "rash", "acne"] },
    { id := "general_practice", name := "General Practice", price := 80,
      duration_minutes := 30, tags := ["general", "checkup"] } ]

/-- The cardiology entry of `defaultCatalog`, the expected match for
heart-related symptom descriptions. -/
def cardiologyService : Service :=
  { id := "cardiology_consultation", name := "Cardiology Consultation", price := 120,
    duration_minutes := 45, tags := ["heart", "cardiac", "chest"] }

/-! ## Definitions: Session and the orchestrator's fallback and identity
handling -/

/-- Modelled from the spec: the per-field confidence attached to an accepted
extraction, used so that a previously accepted field is never overwritten by
a lower-confidence guess (§4.2). -/
abbrev FieldValue := String × Nat

/-- Modelled from the spec: `extracted_info` (§3):
`{service_id?, date?, time?, patient_name?, dob?, symptoms[]}`; the two
identity fields carry the confidence of the accepted value. -/
structure ExtractedInfo where
  service_id : Option String
  date : Option String
  time : Option String
  patient_name : Option FieldValue
  dob : Option FieldValue
  symptoms : List String
deriving DecidableEq

/-- Modelled from the spec: a Session (§3):
`{session_id, messages[], extracted_info, stage, booking_id?}`; messages are
(role, content) pairs. -/
structure Session where
  session_id : String
  messages : List (String × String)
  extracted_info : ExtractedInfo
  stage : Stage
  booking_id : Option String
deriving DecidableEq

/-- Modelled from the spec: the per-stage re-prompt text the orchestrator
answers with on an `unknown` intent (§4.2 transition table, row
any × unknown). -/
def repromptFor : Stage → String
  | Stage.GREETING =>
      "How can I help you today? You can describe your symptoms or ask about our services."
  | Stage.SYMPTOM_INTAKE => "Could you describe your symptoms in a bit more detail?"
  | Stage.SERVICE_PROPOSED => "Would you like to book this service?"
  | Stage.SLOT_SELECTION => "Which date and time work best for you?"
  | Stage.IDENTITY_COLLECTION => "Could you give me your full name and your date of birth?"
  | Stage.CONFIRMED => "Your appointment is confirmed. Is there anything else I can do?"
  | Stage.ABANDONED => "This session has ended."

/-- Modelled from the spec: the orchestrator's defined fallback for the
`unknown` intent (§4.1, §4.2): re-prompt for the information needed by the
current stage and leave the stage unchanged; it is a total function — it never
crashes.  Only the message history grows. -/
def handleUnknown (utterance : String) (session : Session) : String × Session :=
  let resp := repromptFor session.stage
  (resp,
   { session with messages := session.messages ++ [("user", utterance), ("assistant", resp)] })

/-- Modelled from the spec: one extraction turn's guesses for the two identity
fields; a malformed field (e.g. an unparseable DOB) is rejected by validation
and arrives as `none`. -/
structure IdentityGuess where
  name : Option FieldValue
  dob : Option FieldValue
deriving DecidableEq

/-- Modelled from the spec: merging one identity field (§3, §4.2): fields are
only ever added or corrected, never silently reset, and a previously accepted
value is never overwritten by a lower-confidence guess. -/
def mergeField (existing incoming : Option FieldValue) : Option FieldValue :=
  match existing, incoming with
  | none, g => g
  | some e, none => some e
  | some e, some g => if e.2 ≤ g.2 then some g else some e

/-- Modelled from the spec: applying one identity-extraction turn to
`extracted_info` (§4.2): tolerate partial input across turns and merge each
identity field independently; all other fields are untouched. -/
def applyIdentity (info : ExtractedInfo) (g : IdentityGuess) : ExtractedInfo :=
  { info with
    patient_name := mergeField info.patient_name g.name
    dob := mergeField info.dob g.dob }

/-! ## Definitions: frontend (embedded from the React sources) -/

/-- From `src/frontend/src/components/ServiceDetails.js`: the parsed
`/api/services` response body; `data.services` is absent or an object whose
`Object.values` yield the service records. -/
structure ServicesResponse where
  services : Option (List Service)

/-- From `src/frontend/src/components/ServiceDetails.js` (`fetchServices`):
`data.services ? Object.values(data.services) : []`. -/
def fetchServicesArray (data : ServicesResponse) : List Service :=
  match data.services with
  | some svcs => svcs
  | none => []

/-- JavaScript truthiness of a possibly-absent string value: absent, `null`
and the empty string are falsy. -/
def jsTruthy : Option String → Bool
  | none => false
  | some s => decide (s ≠ "")

/-- From `src/frontend/src/App.js` (`initializeSession`): the parsed
`GET /session/new` response — `ok` is `response.ok` and `session_id` is the
`data.session_id` field. -/
structure SessionResponse where
  ok : Bool
  session_id : Option String

/-- From `src/frontend/src/App.js` (`initializeSession`): the component state
this effect sets — the `sessionId` and `sessionError` React states. -/
structure AppSessionState where
  sessionId : Option String
  sessionError : Option String

/-- From `src/frontend/src/App.js`: the locally generated fallback id,
`` `fallback-${Date.now()}` ``. -/
def fallbackSessionId (now : Nat) : String := "fallback-" ++ toString now

/-- From `src/frontend/src/App.js` (`initializeSession`): fetch
`/session/new`; a network/parse failure, a non-ok status, or a response with
no (truthy) `session_id` all land in the catch block, which records the error
and installs the locally generated fallback session id.  `fetchResult = none`
models a rejected fetch or a JSON parse failure. -/
def initializeSession (fetchResult : Option SessionResponse) (now : Nat) : AppSessionState :=
  match fetchResult with
  | none => { sessionId := some (fallbackSessionId now), sessionError := some "fetch failed" }
  | some resp =>
    if resp.ok then
      if jsTruthy resp.session_id then
        { sessionId := resp.session_id, sessionError := none }
      else
        { sessionId := some (fallbackSessionId now),
          sessionError := some "No session_id in response" }
    else
      { sessionId := some (fallbackSessionId now), sessionError := some "HTTP error" }

/-- From `src/frontend/src/App.js`: the start-call `VoiceButton` is rendered
with `disabled = !sessionId`. -/
def voiceButtonDisabled (st : AppSessionState) : Bool := !(jsTruthy st.sessionId)

/-- From `src/frontend/src/App.js` (`handleStartCall`) together with
`sendTextMessage` in the voice hook: every turn's `/api/chat` request body
carries the current `sessionId` unchanged. -/
def chatRequestSessionId (st : AppSessionState) : Option String := st.sessionId

/-- Whether a character is JavaScript `trim` whitespace (the forms the
transcription can realistically contain). -/
def isWS (c : Char) : Bool := c = ' ' || c = '\t' || c = '\n' || c = '\r'

/-- Drop leading whitespace from a character list. -/
def dropLeadingWS : List Char → List Char
  | [] => []
  | c :: cs => if isWS c then dropLeadingWS cs else c :: cs

/-- Embedding of JavaScript `String.prototype.trim`. -/
def jsTrim (s : String) : String :=
  String.mk (List.reverse (dropLeadingWS (List.reverse (dropLeadingWS s.data))))

/-- From `src/unnamed/part_002` (`useVoiceAgent.js`): the parsed
`/api/transcribe` response; `text` is the `data.text` field, absent when the
backend returned none. -/
structure TranscribeResponse where
  text : Option String

/-- From `src/unnamed/part_002` (`useVoiceAgent.js`): the parsed `/api/chat`
response's `assistant_response` field. -/
structure ChatResponse where
  assistant_response : Option String

/-- The status values `onStatusChange` is called with in
`src/unnamed/part_002`. -/
inductive VoiceStatus where
  | idle
  | thinking
  | speaking
  | listening
  | error
deriving DecidableEq

/-- From `src/unnamed/part_002` (`sendAudioToBackend`): the guard
`data.text && data.text.trim().length > 0`, returning the transcription text
when the chat turn goes ahead. -/
def usableTranscript : Option String → Option String
  | none => none
  | some s => if s ≠ "" ∧ jsTrim s ≠ "" then some s else none

/-- From `src/unnamed/part_002` (`sendTextMessage`): the `/api/chat` POST is
made with the given text; if `data.assistant_response` is truthy the response
is handed to App.js and the status set to `idle`, otherwise no status change
happens (the status stays `thinking` from before the fetch). -/
def sendTextMessage (text : String) (resp : ChatResponse) : List String × VoiceStatus :=
  ([text], if jsTruthy resp.assistant_response then VoiceStatus.idle else VoiceStatus.thinking)

/-- From `src/unnamed/part_002` (`sendAudioToBackend`): after the transcribe
fetch, `data.text && data.text.trim().length > 0` decides whether a chat turn
is sent (via `sendTextMessage`) or the status is set straight to `idle`.
Returns the list of `/api/chat` texts sent and the resulting status. -/
def sendAudioToBackend (data : TranscribeResponse) (chat : ChatResponse) :
    List String × VoiceStatus :=
  match usableTranscript data.text with
  | some t => sendTextMessage t chat
  | none => ([], VoiceStatus.idle)

/-! ## Theorems: ledger lemmas -/

theorem lookupSlot_setSlot_self (L : Ledger) (s : Slot) (b : Bool) :
    lookupSlot (setSlot L s b) s = (lookupSlot L s).map (fun _ => b) := by
  induction L with
  | nil => rfl
  | cons hd tl ih =>
    obtain ⟨k, v⟩ := hd
    by_cases hk : k = s
    · simp [setSlot, lookupSlot, hk]
    · simp [setSlot, lookupSlot, hk, ih]

theorem lookupSlot_setSlot_ne (L : Ledger) (s s' : Slot) (b : Bool) (h : s' ≠ s) :
    lookupSlot (setSlot L s b) s' = lookupSlot L s' := by
  induction L with
  | nil => rfl
  | cons hd tl ih =>
    obtain ⟨k, v⟩ := hd
    by_cases hk : k = s
    · simp [setSlot, lookupSlot, hk, Ne.symm h]
    · by_cases hk' : k = s'
      · simp [setSlot, lookupSlot, hk, hk', h]
      · simp [setSlot, lookupSlot, hk, hk', ih]

theorem reserve_of_free (L : Ledger) (s : Slot) (h : lookupSlot L s = some true) :
    reserve L s = (true, setSlot L s false) := by
  simp [reserve, h]

theorem reserve_of_not_free (L : Ledger) (s : Slot) (h : lookupSlot L s ≠ some true) :
    reserve L s = (false, L) := by
  unfold reserve
  match hv : lookupSlot L s with
  | none => rfl
  | some false => rfl
  | some true => exact absurd hv h

theorem runReserves_not_free (L : Ledger) (s : Slot) (n : Nat)
    (h : lookupSlot L s ≠ some true) :
    (runReserves L s n).1.length = n ∧ (runReserves L s n).1.count true = 0 := by
  induction n with
  | zero => simp [runReserves]
  | succ m ih =>
    simp only [runReserves, reserve_of_not_free L s h]
    constructor
    · simp [ih.1]
    · simp [List.count_cons, ih.2]

/-- C1: for every slot and every set of concurrent `reserve(date, time)` calls
targeting that slot — linearized into a sequence of atomic check-and-set steps
— exactly one call returns success and all others return failure: the result
list has length `n` and contains `true` exactly once. -/
theorem C1_concurrent_reserve_exactly_one (L : Ledger) (s : Slot) (n : Nat)
    (hfree : lookupSlot L s = some true) (hn : 0 < n) :
    (runReserves L s n).1.length = n ∧ (runReserves L s n).1.count true = 1 := by
  obtain ⟨m, rfl⟩ : ∃ m, n = m + 1 := ⟨n - 1, by omega⟩
  simp only [runReserves, reserve_of_free L s hfree]
  have htaken : lookupSlot (setSlot L s false) s ≠ some true := by
    rw [lookupSlot_setSlot_self, hfree]
    simp
  have h0 := runReserves_not_free (setSlot L s false) s m htaken
  constructor
  · simp [h0.1]
  · simp [List.count_cons, h0.2]

/-- Witness for C1: a two-way race on an initially free slot sees exactly one
success. -/
theorem C1_witness :
    (runReserves [(("2025-01-05", "10:00"), true)] ("2025-01-05", "10:00") 2).1.length = 2 ∧
    (runReserves [(("2025-01-05", "10:00"), true)] ("2025-01-05", "10:00") 2).1.count true = 1 :=
  C1_concurrent_reserve_exactly_one [(("2025-01-05", "10:00"), true)]
    ("2025-01-05", "10:00") 2 (by decide) (by decide)

/-! ## Theorems: booking commit -/

theorem commitBooking_eq_of_free (st : CoreState) (s : Slot) (req : BookingRequest)
    (instant : String) (createOk : Bool) (hfree : lookupSlot st.ledger s = some true) :
    commitBooking st s req instant createOk =
      (if createOk then
        (CommitResult.committed (mkBooking s req instant),
         { st with ledger := setSlot st.ledger s false,
                   bookings := st.bookings ++ [mkBooking s req instant] })
      else
        (CommitResult.slotReservedButBookingFailed,
         { st with ledger := release (setSlot st.ledger s false) s })) := by
  unfold commitBooking
  rw [reserve_of_free st.ledger s hfree]

theorem commitBooking_eq_of_not_free (st : CoreState) (s : Slot) (req : BookingRequest)
    (instant : String) (createOk : Bool) (h : lookupSlot st.ledger s ≠ some true) :
    commitBooking st s req instant createOk = (CommitResult.slotUnavailable, st) := by
  unfold commitBooking
  rw [reserve_of_not_free st.ledger s h]

theorem release_setSlot_lookup (L : Ledger) (s s' : Slot)
    (hfree : lookupSlot L s = some true) :
    lookupSlot (release (setSlot L s false) s) s' = lookupSlot L s' := by
  by_cases hss : s' = s
  · subst hss
    rw [release, lookupSlot_setSlot_self, lookupSlot_setSlot_self, hfree]
    rfl
  · rw [release, lookupSlot_setSlot_ne _ _ _ _ hss, lookupSlot_setSlot_ne _ _ _ _ hss]

/-- C3: for every booking-commit attempt in which `reserve(date, time)`
succeeds (the slot was free) but the BookingStore `create` fails, the commit
returns `SlotReservedButBookingFailed`, the reserve is compensated so that the
ledger is observationally unchanged (in particular the slot is free again, not
left `taken`), and no Booking record is added. -/
theorem C3_compensating_release (st : CoreState) (s : Slot) (req : BookingRequest)
    (instant : String) (hfree : lookupSlot st.ledger s = some true) :
    (commitBooking st s req instant false).1 = CommitResult.slotReservedButBookingFailed ∧
    (∀ s', lookupSlot (commitBooking st s req instant false).2.ledger s' =
      lookupSlot st.ledger s') ∧
    (commitBooking st s req instant false).2.bookings = st.bookings := by
  rw [commitBooking_eq_of_free st s req instant false hfree]
  refine ⟨rfl, ?_, rfl⟩
  intro s'
  exact release_setSlot_lookup st.ledger s s' hfree

/-- Witness for C3: a failed `create` on a concrete free slot leaves the
ledger as it was and adds no booking. -/
theorem C3_witness :
    (commitBooking ⟨[], [(("2025-01-05", "10:00"), true)], []⟩ ("2025-01-05", "10:00")
      ⟨"John Smith", "1990-05-15", "cardiology_consultation", 120⟩ "T0" false).1 =
      CommitResult.slotReservedButBookingFailed ∧
    (∀ s', lookupSlot (commitBooking ⟨[], [(("2025-01-05", "10:00"), true)], []⟩
      ("2025-01-05", "10:00")
      ⟨"John Smith", "1990-05-15", "cardiology_consultation", 120⟩ "T0" false).2.ledger s' =
      lookupSlot [(("2025-01-05", "10:00"), true)] s') ∧
    (commitBooking ⟨[], [(("2025-01-05", "10:00"), true)], []⟩ ("2025-01-05", "10:00")
      ⟨"John Smith", "1990-05-15", "cardiology_consultation", 120⟩ "T0" false).2.bookings = [] :=
  C3_compensating_release ⟨[], [(("2025-01-05", "10:00"), true)], []⟩ ("2025-01-05", "10:00")
    ⟨"John Smith", "1990-05-15", "cardiology_consultation", 120⟩ "T0" (by decide)

theorem bookingSlot_mkBooking (s : Slot) (req : BookingRequest) (instant : String) :
    bookingSlot (mkBooking s req instant) = s := rfl

/-- C2: the booking-store invariant — every committed Booking references a
slot that is `taken` and no other Booking references the same slot — is
preserved by every booking commit, and on a successful commit the referenced
slot was `free` immediately before the commit and is `taken` immediately
after, with the new Booking the only one referencing it. -/
theorem C2_booking_invariant (st : CoreState) (s : Slot) (req : BookingRequest)
    (instant : String) (createOk : Bool) (hinv : BookingsInv st) :
    BookingsInv (commitBooking st s req instant createOk).2 ∧
    (∀ b, (commitBooking st s req instant createOk).1 = CommitResult.committed b →
      lookupSlot st.ledger s = some true ∧
      lookupSlot (commitBooking st s req instant createOk).2.ledger s = some false ∧
      bookingSlot b = s ∧
      b ∈ (commitBooking st s req instant createOk).2.bookings ∧
      ∀ b' ∈ st.bookings, bookingSlot b' ≠ s) := by
  by_cases hfree : lookupSlot st.ledger s = some true
  · have hnotin : ∀ b' ∈ st.bookings, bookingSlot b' ≠ s := by
      intro b' hb' hceq
      have hx := hinv.1 b' hb'
      rw [hceq, hfree] at hx
      exact Bool.noConfusion (Option.some.inj hx)
    rw [commitBooking_eq_of_free st s req instant createOk hfree]
    cases createOk with
    | false =>
      rw [if_neg (by simp)]
      refine ⟨⟨?_, hinv.2⟩, ?_⟩
      · intro b hb
        have h1 := hinv.1 b hb
        rw [release_setSlot_lookup st.ledger s (bookingSlot b) hfree]
        exact h1
      · intro b hb
        exact absurd hb (by simp)
    | true =>
      rw [if_pos rfl]
      have hlook : lookupSlot (setSlot st.ledger s false) s = some false := by
        rw [lookupSlot_setSlot_self, hfree]
        rfl
      refine ⟨⟨?_, ?_⟩, ?_⟩
      · intro b hb
        rcases List.mem_append.mp hb with hbo | hbn
        · have hne : bookingSlot b ≠ s := hnotin b hbo
          rw [lookupSlot_setSlot_ne st.ledger s (bookingSlot b) false hne]
          exact hinv.1 b hbo
        · rw [List.mem_singleton.mp hbn, bookingSlot_mkBooking]
          exact hlook
      · rw [List.map_append, List.nodup_append]
        refine ⟨hinv.2, by simp, ?_⟩
        intro a ha hmem
        obtain ⟨b', hb', hslot⟩ := List.mem_map.mp ha
        simp only [List.map_cons, List.map_nil, List.mem_singleton,
          bookingSlot_mkBooking] at hmem
        exact hnotin b' hb' (hslot.symm ▸ hmem ▸ rfl)
      · intro b hb
        have hbval : mkBooking s req instant = b := CommitResult.committed.inj hb
        subst hbval
        exact ⟨hfree, hlook, bookingSlot_mkBooking s req instant,
          List.mem_append.mpr (Or.inr (List.mem_singleton.mpr rfl)), hnotin⟩
  · rw [commitBooking_eq_of_not_free st s req instant createOk hfree]
    refine ⟨hinv, ?_⟩
    intro b hb
    exact absurd hb (by simp)

/-- Witness for C2: committing a concrete booking on a free slot from an
empty store establishes the invariant, with the slot free before and taken
after. -/
theorem C2_witness :
    BookingsInv (commitBooking ⟨[], [(("2025-01-05", "10:00"), true)], []⟩
      ("2025-01-05", "10:00")
      ⟨"John Smith", "1990-05-15", "cardiology_consultation", 120⟩ "T0" true).2 ∧
    (∀ b, (commitBooking ⟨[], [(("2025-01-05", "10:00"), true)], []⟩
      ("2025-01-05", "10:00")
      ⟨"John Smith", "1990-05-15", "cardiology_consultation", 120⟩ "T0" true).1 =
        CommitResult.committed b →
      lookupSlot [(("2025-01-05", "10:00"), true)] ("2025-01-05", "10:00") = some true ∧
      lookupSlot (commitBooking ⟨[], [(("2025-01-05", "10:00"), true)], []⟩
        ("2025-01-05", "10:00")
        ⟨"John Smith", "1990-05-15", "cardiology_consultation", 120⟩ "T0"
        true).2.ledger ("2025-01-05", "10:00") = some false ∧
      bookingSlot b = ("2025-01-05", "10:00") ∧
      b ∈ (commitBooking ⟨[], [(("2025-01-05", "10:00"), true)], []⟩
        ("2025-01-05", "10:00")
        ⟨"John Smith", "1990-05-15", "cardiology_consultation", 120⟩ "T0"
        true).2.bookings ∧
      ∀ b' ∈ ([] : List Booking), bookingSlot b' ≠ ("2025-01-05", "10:00")) :=
  C2_booking_invariant ⟨[], [(("2025-01-05", "10:00"), true)], []⟩ ("2025-01-05", "10:00")
    ⟨"John Smith", "1990-05-15", "cardiology_consultation", 120⟩ "T0" true
    ⟨fun b hb => absurd hb (List.not_mem_nil b), List.nodup_nil⟩

/-! ## Theorems: a slot is taken at most once and never re-opened -/

theorem isTaken_applyOp (st : CoreState) (op : CoreOp) (s : Slot)
    (h : isTaken st.ledger s = true) : isTaken (applyOp st op).ledger s = true := by
  simp only [isTaken, decide_eq_true_eq] at h ⊢
  cases op with
  | reserveOp s' =>
    by_cases hfree' : lookupSlot st.ledger s' = some true
    · by_cases hss : s = s'
      · rw [hss] at h
        rw [hfree'] at h
        exact absurd (Option.some.inj h) (by simp)
      · simp only [applyOp, reserve_of_free st.ledger s' hfree']
        rw [lookupSlot_setSlot_ne st.ledger s' s false hss]
        exact h
    · simp only [applyOp, reserve_of_not_free st.ledger s' hfree']
      exact h
  | commitOp s' req instant createOk =>
    by_cases hfree' : lookupSlot st.ledger s' = some true
    · simp only [applyOp]
      rw [commitBooking_eq_of_free st s' req instant createOk hfree']
      cases createOk with
      | true =>
        rw [if_pos rfl]
        by_cases hss : s = s'
        · rw [hss] at h
          rw [hfree'] at h
          exact absurd (Option.some.inj h) (by simp)
        · rw [lookupSlot_setSlot_ne st.ledger s' s false hss]
          exact h
      | false =>
        rw [if_neg (by simp)]
        rw [release_setSlot_lookup st.ledger s' s hfree']
        exact h
    · simp only [applyOp]
      rw [commitBooking_eq_of_not_free st s' req instant createOk hfree']
      exact h

theorem countFreeToTaken_of_taken (s : Slot) (ops : List CoreOp) :
    ∀ st : CoreState, isTaken st.ledger s = true → countFreeToTaken s st ops = 0 := by
  induction ops with
  | nil => intro st _; simp [countFreeToTaken]
  | cons op rest ih =>
    intro st h
    have h' := isTaken_applyOp st op s h
    simp only [countFreeToTaken]
    rw [if_neg (by simp [h]), ih (applyOp st op) h']

theorem countFreeToTaken_le_one (s : Slot) (ops : List CoreOp) :
    ∀ st : CoreState, countFreeToTaken s st ops ≤ 1 := by
  induction ops with
  | nil => intro st; simp [countFreeToTaken]
  | cons op rest ih =>
    intro st
    by_cases hc : isTaken st.ledger s = false ∧ isTaken (applyOp st op).ledger s = true
    · simp only [countFreeToTaken]
      rw [if_pos hc, countFreeToTaken_of_taken s rest (applyOp st op) hc.2]
    · simp only [countFreeToTaken]
      rw [if_neg hc]
      simpa using ih (applyOp st op)

/-- C4: along every sequence of operations performed by this core, a slot
that is `taken` stays `taken` (no core operation re-opens a slot), and a slot
transitions from `free` to `taken` at most once. -/
theorem C4_slot_one_way (s : Slot) (st : CoreState) (op : CoreOp) (ops : List CoreOp) :
    (isTaken st.ledger s = true → isTaken (applyOp st op).ledger s = true) ∧
    countFreeToTaken s st ops ≤ 1 :=
  ⟨isTaken_applyOp st op s, countFreeToTaken_le_one s ops st⟩

/-- Witness for C4: a concrete run — a successful commit followed by a rival
reserve and a rival commit — flips the slot at most once, and an already-taken
slot stays taken across a reserve. -/
theorem C4_witness :
    (isTaken (⟨[], [(("2025-01-05", "10:00"), false)], []⟩ : CoreState).ledger
        ("2025-01-05", "10:00") = true →
      isTaken (applyOp ⟨[], [(("2025-01-05", "10:00"), false)], []⟩
        (CoreOp.reserveOp ("2025-01-05", "10:00"))).ledger ("2025-01-05", "10:00") = true) ∧
    countFreeToTaken ("2025-01-05", "10:00") ⟨[], [(("2025-01-05", "10:00"), false)], []⟩
      [CoreOp.commitOp ("2025-01-05", "10:00")
        ⟨"John Smith", "1990-05-15", "cardiology_consultation", 120⟩ "T0" true,
       CoreOp.reserveOp ("2025-01-05", "10:00"),
       CoreOp.commitOp ("2025-01-05", "10:00")
        ⟨"Jane Doe", "1985-02-03", "general_practice", 80⟩ "T1" true] ≤ 1 :=
  C4_slot_one_way ("2025-01-05", "10:00") ⟨[], [(("2025-01-05", "10:00"), false)], []⟩
    (CoreOp.reserveOp ("2025-01-05", "10:00"))
    [CoreOp.commitOp ("2025-01-05", "10:00")
      ⟨"John Smith", "1990-05-15", "cardiology_consultation", 120⟩ "T0" true,
     CoreOp.reserveOp ("2025-01-05", "10:00"),
     CoreOp.commitOp ("2025-01-05", "10:00")
      ⟨"Jane Doe", "1985-02-03", "general_practice", 80⟩ "T1" true]

/-! ## Theorems: the service catalog -/

theorem applyOp_catalog (st : CoreState) (op : CoreOp) :
    (applyOp st op).catalog = st.catalog := by
  cases op with
  | reserveOp s => rfl
  | commitOp s req instant createOk =>
    simp only [applyOp]
    unfold commitBooking
    match reserve st.ledger s with
    | (true, L') =>
      cases createOk with
      | true => rfl
      | false => rfl
    | (false, _) => rfl

/-- C8: `list_services()` returns the loaded sequence of Service records —
each carrying the fields id, name, price, duration_minutes and tags — and the
records are immutable after load: no sequence of core operations changes
them, and the frontend's `fetchServices` merely unwraps the response's
`services` collection without altering the records. -/
theorem C8_list_services (st : CoreState) (ops : List CoreOp) :
    list_services (ops.foldl applyOp st) = list_services st ∧
    (∀ svc ∈ list_services st,
      svc = { id := svc.id, name := svc.name, price := svc.price,
              duration_minutes := svc.duration_minutes, tags := svc.tags }) ∧
    (∀ svcs : List Service, fetchServicesArray ⟨some svcs⟩ = svcs) ∧
    fetchServicesArray ⟨none⟩ = [] := by
  refine ⟨?_, fun svc _ => rfl, fun svcs => rfl, rfl⟩
  induction ops generalizing st with
  | nil => rfl
  | cons op rest ih =>
    simp only [List.foldl_cons]
    rw [ih (applyOp st op)]
    simp only [list_services, applyOp_catalog]

/-- Witness for C8: a concrete booking commit leaves the loaded catalog
untouched. -/
theorem C8_witness :
    list_services ([CoreOp.commitOp ("2025-01-05", "10:00")
        ⟨"John Smith", "1990-05-15", "cardiology_consultation", 120⟩ "T0" true].foldl applyOp
      ⟨defaultCatalog, [(("2025-01-05", "10:00"), true)], []⟩) =
      list_services ⟨defaultCatalog, [(("2025-01-05", "10:00"), true)], []⟩ ∧
    (∀ svc ∈ list_services (⟨defaultCatalog, [(("2025-01-05", "10:00"), true)], []⟩ :
        CoreState),
      svc = { id := svc.id, name := svc.name, price := svc.price,
              duration_minutes := svc.duration_minutes, tags := svc.tags }) ∧
    (∀ svcs : List Service, fetchServicesArray ⟨some svcs⟩ = svcs) ∧
    fetchServicesArray ⟨none⟩ = [] :=
  C8_list_services ⟨defaultCatalog, [(("2025-01-05", "10:00"), true)], []⟩
    [CoreOp.commitOp ("2025-01-05", "10:00")
      ⟨"John Smith", "1990-05-15", "cardiology_consultation", 120⟩ "T0" true]

/-! ## Theorems: the unknown-intent fallback -/

/-- C6: whenever no classifier rule matches the utterance in the current
stage, `classify` returns `unknown`; and the orchestrator's (total, hence
non-crashing) handling of `unknown` answers with the re-prompt for the
current stage while leaving the session's stage, extracted info, booking id
and session id unchanged — only the message history grows. -/
theorem C6_unknown_fallback :
    (∀ (rules : List ClassifierRule) (u : String) (st : Stage),
      (∀ r ∈ rules, ruleMatches r u st = false) → classify rules u st = Intent.unknown) ∧
    (∀ (u : String) (session : Session),
      (handleUnknown u session).1 = repromptFor session.stage ∧
      (handleUnknown u session).2.stage = session.stage ∧
      (handleUnknown u session).2.extracted_info = session.extracted_info ∧
      (handleUnknown u session).2.booking_id = session.booking_id ∧
      (handleUnknown u session).2.session_id = session.session_id ∧
      (handleUnknown u session).2.messages =
        session.messages ++ [("user", u), ("assistant", repromptFor session.stage)]) := by
  constructor
  · intro rules u st hno
    unfold classify
    have hfind : rules.find? (fun r => ruleMatches r u st) = none := by
      rw [List.find?_eq_none]
      intro r hr
      simp [hno r hr]
    rw [hfind]
  · intro u session
    exact ⟨rfl, rfl, rfl, rfl, rfl, rfl⟩

/-- Witness for C6: an utterance matching no rule at stage SLOT_SELECTION
classifies as `unknown`, and the fallback re-prompts without touching the
concrete session's stage or fields. -/
theorem C6_witness :
    classify defaultRules "xyzzy" Stage.SLOT_SELECTION = Intent.unknown ∧
    (handleUnknown "xyzzy"
      ⟨"s1", [], ⟨none, none, none, none, none, []⟩, Stage.SLOT_SELECTION, none⟩).1 =
      repromptFor Stage.SLOT_SELECTION ∧
    (handleUnknown "xyzzy"
      ⟨"s1", [], ⟨none, none, none, none, none, []⟩, Stage.SLOT_SELECTION, none⟩).2.stage =
      Stage.SLOT_SELECTION :=
  ⟨C6_unknown_fallback.1 defaultRules "xyzzy" Stage.SLOT_SELECTION (by decide),
   (C6_unknown_fallback.2 "xyzzy"
     ⟨"s1", [], ⟨none, none, none, none, none, []⟩, Stage.SLOT_SELECTION, none⟩).1,
   (C6_unknown_fallback.2 "xyzzy"
     ⟨"s1", [], ⟨none, none, none, none, none, []⟩, Stage.SLOT_SELECTION, none⟩).2.1⟩

/-! ## Theorems: monotonic accumulation of extracted info -/

/-- C7: identity extraction accumulates monotonically — a field that is set
is never reset by a later turn, the non-identity fields are untouched by
identity extraction, a turn that carries only a DOB (e.g. a correction after
an initially malformed DOB, which validation rejected as `none`) updates
`dob` without discarding `patient_name`, and an accepted field is never
overwritten by a lower-confidence guess. -/
theorem C7_monotonic_extracted_info :
    (∀ (info : ExtractedInfo) (g : IdentityGuess),
      (info.patient_name.isSome = true → (applyIdentity info g).patient_name.isSome = true) ∧
      (info.dob.isSome = true → (applyIdentity info g).dob.isSome = true) ∧
      (applyIdentity info g).service_id = info.service_id ∧
      (applyIdentity info g).date = info.date ∧
      (applyIdentity info g).time = info.time ∧
      (applyIdentity info g).symptoms = info.symptoms) ∧
    (∀ (info : ExtractedInfo) (g : IdentityGuess), g.name = none →
      (applyIdentity info g).patient_name = info.patient_name) ∧
    (∀ (info : ExtractedInfo) (d : FieldValue), info.dob = none →
      (applyIdentity info ⟨none, some d⟩).dob = some d ∧
      (applyIdentity info ⟨none, some d⟩).patient_name = info.patient_name) ∧
    (∀ (v w : FieldValue), w.2 < v.2 → mergeField (some v) (some w) = some v) := by
  refine ⟨?_, ?_, ?_, ?_⟩
  · intro info g
    refine ⟨?_, ?_, rfl, rfl, rfl, rfl⟩
    · intro hsome
      obtain ⟨e, he⟩ := Option.isSome_iff_exists.mp hsome
      simp only [applyIdentity, he, mergeField]
      cases g.name with
      | none => simp
      | some gn =>
        by_cases hc : e.2 ≤ gn.2
        · simp [hc]
        · simp [hc]
    · intro hsome
      obtain ⟨e, he⟩ := Option.isSome_iff_exists.mp hsome
      simp only [applyIdentity, he, mergeField]
      cases g.dob with
      | none => simp
      | some gd =>
        by_cases hc : e.2 ≤ gd.2
        · simp [hc]
        · simp [hc]
  · intro info g hg
    simp only [applyIdentity, hg]
    cases hpn : info.patient_name with
    | none => simp [mergeField]
    | some e => simp [mergeField]
  · intro info d hdob
    simp only [applyIdentity, hdob]
    exact ⟨rfl, by cases hpn : info.patient_name <;> simp [mergeField]⟩
  · intro v w hlt
    simp only [mergeField]
    rw [if_neg (by omega)]

/-- Witness for C7: with a name accepted at confidence 2, a turn carrying
only a corrected DOB updates the DOB and keeps the name, and a confidence-1
rival name guess cannot overwrite the accepted name. -/
theorem C7_witness :
    ((⟨none, none, none, some ("John Smith", 2), none, ["heart problems"]⟩ :
        ExtractedInfo).patient_name.isSome = true →
      (applyIdentity ⟨none, none, none, some ("John Smith", 2), none, ["heart problems"]⟩
        ⟨some ("Jon Smith", 1), some ("1990-05-15", 2)⟩).patient_name.isSome = true) ∧
    (applyIdentity ⟨none, none, none, some ("John Smith", 2), none, ["heart problems"]⟩
      ⟨none, some ("1990-05-15", 2)⟩).dob = some ("1990-05-15", 2) ∧
    (applyIdentity ⟨none, none, none, some ("John Smith", 2), none, ["heart problems"]⟩
      ⟨none, some ("1990-05-15", 2)⟩).patient_name = some ("John Smith", 2) ∧
    mergeField (some ("John Smith", 2)) (some ("Jon Smith", 1)) = some ("John Smith", 2) :=
  ⟨(C7_monotonic_extracted_info.1
      ⟨none, none, none, some ("John Smith", 2), none, ["heart problems"]⟩
      ⟨some ("Jon Smith", 1), some ("1990-05-15", 2)⟩).1,
   (C7_monotonic_extracted_info.2.2.1
      ⟨none, none, none, some ("John Smith", 2), none, ["heart problems"]⟩
      ("1990-05-15", 2) rfl).1,
   (C7_monotonic_extracted_info.2.2.1
      ⟨none, none, none, some ("John Smith", 2), none, ["heart problems"]⟩
      ("1990-05-15", 2) rfl).2,
   C7_monotonic_extracted_info.2.2.2 ("John Smith", 2) ("Jon Smith", 1) (by decide)⟩

/-! ## Theorems: service matching -/

theorem bestService_spec (toks : List String) :
    ∀ (catalog : List Service) (svc : Service) (sc : Nat),
      bestService catalog toks = some (svc, sc) →
      sc = tagScore svc toks ∧
      (∀ s2 ∈ catalog, tagScore s2 toks ≤ sc) ∧
      (∃ l1 l2, catalog = l1 ++ svc :: l2 ∧ ∀ s1 ∈ l1, tagScore s1 toks < sc) := by
  intro catalog
  induction catalog with
  | nil => intro svc sc h; simp [bestService] at h
  | cons c rest ih =>
    intro svc sc h
    simp only [bestService] at h
    cases hb : bestService rest toks with
    | none =>
      simp only [hb] at h
      obtain ⟨rfl, rfl⟩ := Prod.mk.inj (Option.some.inj h)
      have hrest : rest = [] := by
        cases rest with
        | nil => rfl
        | cons c' rest' =>
          simp only [bestService] at hb
          cases hb' : bestService rest' toks with
          | none =>
            simp only [hb'] at hb
            exact absurd hb (by simp)
          | some p =>
            obtain ⟨b, bsc⟩ := p
            simp only [hb'] at hb
            by_cases hc : bsc ≤ tagScore c' toks
            · rw [if_pos hc] at hb
              exact absurd hb (by simp)
            · rw [if_neg hc] at hb
              exact absurd hb (by simp)
      subst hrest
      refine ⟨rfl, ?_, [], [], rfl, ?_⟩
      · intro s2 hs2
        rw [List.mem_singleton.mp hs2]
      · intro s1 hs1
        exact absurd hs1 (List.not_mem_nil s1)
    | some p =>
      obtain ⟨b, bsc⟩ := p
      simp only [hb] at h
      obtain ⟨hsc, hmax, l1, l2, hcat, hfirst⟩ := ih b bsc hb
      by_cases hc : bsc ≤ tagScore c toks
      · rw [if_pos hc] at h
        obtain ⟨rfl, rfl⟩ := Prod.mk.inj (Option.some.inj h)
        refine ⟨rfl, ?_, [], rest, rfl, ?_⟩
        · intro s2 hs2
          rcases List.mem_cons.mp hs2 with rfl | hs2r
          · exact Nat.le_refl _
          · exact Nat.le_trans (hmax s2 hs2r) hc
        · intro s1 hs1
          exact absurd hs1 (List.not_mem_nil s1)
      · rw [if_neg hc] at h
        obtain ⟨rfl, rfl⟩ := Prod.mk.inj (Option.some.inj h)
        have hlt : tagScore c toks < bsc := Nat.lt_of_not_le hc
        refine ⟨hsc, ?_, c :: l1, l2, by rw [hcat, List.cons_append], ?_⟩
        · intro s2 hs2
          rcases List.mem_cons.mp hs2 with rfl | hs2r
          · exact Nat.le_of_lt hlt
          · exact hmax s2 hs2r
        · intro s1 hs1
          rcases List.mem_cons.mp hs1 with rfl | hs1r
          · exact hlt
          · exact hfirst s1 hs1r

/-- C5: service matching tokenizes the symptom description and scores each
Service by tag-token overlap; the proposal is the highest-scoring Service,
ties broken by catalog order (the proposed service's score is maximal and
every earlier catalog entry scores strictly lower); when the best score is
zero the general-practice default is proposed if it exists and otherwise more
detail is requested; and for the utterance "I have heart problems" the
classifier yields `symptoms` and the proposed service carries the tag
"heart". -/
theorem C5_service_matching :
    (∀ (catalog : List Service) (u : String) (svc : Service) (sc : Nat),
      bestService catalog (tokenize u) = some (svc, sc) →
      sc = tagScore svc (tokenize u) ∧
      (∀ s2 ∈ catalog, tagScore s2 (tokenize u) ≤ sc) ∧
      (∃ l1 l2, catalog = l1 ++ svc :: l2 ∧
        ∀ s1 ∈ l1, tagScore s1 (tokenize u) < sc)) ∧
    (∀ (catalog : List Service) (u : String) (svc : Service) (sc : Nat),
      bestService catalog (tokenize u) = some (svc, sc) → 0 < sc →
      matchSymptoms catalog u = MatchOutcome.proposed svc) ∧
    (∀ (catalog : List Service) (u : String) (svc : Service) (g : Service),
      bestService catalog (tokenize u) = some (svc, 0) →
      generalPracticeDefault catalog = some g →
      matchSymptoms catalog u = MatchOutcome.proposed g) ∧
    (∀ (catalog : List Service) (u : String) (svc : Service),
      bestService catalog (tokenize u) = some (svc, 0) →
      generalPracticeDefault catalog = none →
      matchSymptoms catalog u = MatchOutcome.askMoreDetail) ∧
    (classify defaultRules "I have heart problems" Stage.GREETING = Intent.symptoms ∧
      matchSymptoms defaultCatalog "I have heart problems" =
        MatchOutcome.proposed cardiologyService ∧
      memStr "heart" cardiologyService.tags = true) := by
  refine ⟨?_, ?_, ?_, ?_, by decide, by decide, by decide⟩
  · intro catalog u svc sc h
    exact bestService_spec (tokenize u) catalog svc sc h
  · intro catalog u svc sc h hpos
    unfold matchSymptoms
    simp only [h]
    rw [if_pos hpos]
  · intro catalog u svc g h hg
    unfold matchSymptoms
    simp only [h]
    rw [if_neg (Nat.lt_irrefl 0)]
    simp only [hg]
  · intro catalog u svc h hg
    unfold matchSymptoms
    simp only [h]
    rw [if_neg (Nat.lt_irrefl 0)]
    simp only [hg]

/-- Witness for C5: on the default catalog and the utterance "I have heart
problems", the best service is the cardiology consultation with score 1, its
score is maximal, and it is proposed. -/
theorem C5_witness :
    (1 = tagScore cardiologyService (tokenize "I have heart problems") ∧
      (∀ s2 ∈ defaultCatalog, tagScore s2 (tokenize "I have heart problems") ≤ 1) ∧
      (∃ l1 l2, defaultCatalog = l1 ++ cardiologyService :: l2 ∧
        ∀ s1 ∈ l1, tagScore s1 (tokenize "I have heart problems") < 1)) ∧
    matchSymptoms defaultCatalog "I have heart problems" =
      MatchOutcome.proposed cardiologyService :=
  ⟨C5_service_matching.1 defaultCatalog "I have heart problems" cardiologyService 1
    (by decide),
   C5_service_matching.2.1 defaultCatalog "I have heart problems" cardiologyService 1
    (by decide) (by decide)⟩

/-! ## Theorems: frontend session fallback -/

theorem fallbackSessionId_ne_empty (now : Nat) : fallbackSessionId now ≠ "" := by
  intro h
  have h2 : "fallback-".data ++ (toString now).data = ("" : String).data :=
    congrArg String.data h
  simp at h2

/-- C9: whenever the `GET /session/new` fetch fails, returns a non-ok status,
or returns a body with no (truthy) `session_id`, `initializeSession` installs
the locally generated `fallback-<timestamp>` id, the start-call button is
enabled anyway (`disabled = !sessionId` is false), and subsequent chat turns
carry that locally generated id — one the backend never issued. -/
theorem C9_fallback_session (fetchResult : Option SessionResponse) (now : Nat)
    (hfail : fetchResult = none ∨
      ∃ resp, fetchResult = some resp ∧
        (resp.ok = false ∨ jsTruthy resp.session_id = false)) :
    (initializeSession fetchResult now).sessionId = some (fallbackSessionId now) ∧
    voiceButtonDisabled (initializeSession fetchResult now) = false ∧
    chatRequestSessionId (initializeSession fetchResult now) =
      some ("fallback-" ++ toString now) := by
  have hid : (initializeSession fetchResult now).sessionId = some (fallbackSessionId now) := by
    rcases hfail with rfl | ⟨resp, rfl, hcase⟩
    · rfl
    · rcases hcase with hok | hsid
      · simp [initializeSession, hok]
      · cases hok : resp.ok
        · simp [initializeSession, hok]
        · simp [initializeSession, hok, hsid]
  refine ⟨hid, ?_, ?_⟩
  · simp [voiceButtonDisabled, hid, jsTruthy, fallbackSessionId_ne_empty now]
  · simpa [chatRequestSessionId, fallbackSessionId] using hid

/-- Witness for C9: a response that is ok but carries an empty `session_id`
lands in the fallback path with the button enabled. -/
theorem C9_witness :
    (initializeSession (some ⟨true, some ""⟩) 42).sessionId = some (fallbackSessionId 42) ∧
    voiceButtonDisabled (initializeSession (some ⟨true, some ""⟩) 42) = false ∧
    chatRequestSessionId (initializeSession (some ⟨true, some ""⟩) 42) =
      some ("fallback-" ++ toString 42) :=
  C9_fallback_session (some ⟨true, some ""⟩) 42
    (Or.inr ⟨⟨true, some ""⟩, rfl, Or.inr (by decide)⟩)

/-! ## Theorems: empty transcriptions send no chat turn -/

/-- C10: for every `/api/transcribe` response whose `text` field is absent,
empty, or whitespace-only (trims to the empty string), `sendAudioToBackend`
makes no `/api/chat` request and sets the status to `idle`; and any chat turn
it does send carries a transcription text that is non-empty after trimming. -/
theorem C10_empty_transcription :
    (∀ (data : TranscribeResponse) (chat : ChatResponse),
      (data.text = none ∨ ∃ s, data.text = some s ∧ jsTrim s = "") →
      sendAudioToBackend data chat = ([], VoiceStatus.idle)) ∧
    (∀ (data : TranscribeResponse) (chat : ChatResponse) (t : String),
      t ∈ (sendAudioToBackend data chat).1 → data.text = some t ∧ jsTrim t ≠ "") := by
  constructor
  · intro data chat hempty
    rcases hempty with hnone | ⟨s, hsome, htrim⟩
    · simp [sendAudioToBackend, usableTranscript, hnone]
    · have hcond : ¬(s ≠ "" ∧ jsTrim s ≠ "") := fun hc => hc.2 htrim
      simp only [sendAudioToBackend, usableTranscript, hsome]
      rw [if_neg hcond]
  · intro data chat t ht
    cases hd : data.text with
    | none =>
      simp [sendAudioToBackend, usableTranscript, hd] at ht
    | some s =>
      by_cases hcond : s ≠ "" ∧ jsTrim s ≠ ""
      · simp only [sendAudioToBackend, usableTranscript, hd, if_pos hcond,
          sendTextMessage] at ht
        obtain rfl := List.mem_singleton.mp ht
        exact ⟨rfl, hcond.2⟩
      · simp only [sendAudioToBackend, usableTranscript, hd] at ht
        rw [if_neg hcond] at ht
        exact absurd ht (by simp)

/-- Witness for C10: a whitespace-only transcription and an absent one both
send no chat turn and set the status to idle. -/
theorem C10_witness :
    sendAudioToBackend ⟨some "   "⟩ ⟨some "Hello"⟩ = ([], VoiceStatus.idle) ∧
    sendAudioToBackend ⟨none⟩ ⟨some "Hello"⟩ = ([], VoiceStatus.idle) :=
  ⟨C10_empty_transcription.1 ⟨some "   "⟩ ⟨some "Hello"⟩ (Or.inr ⟨"   ", rfl, by decide⟩),
   C10_empty_transcription.1 ⟨none⟩ ⟨some "Hello"⟩ (Or.inl rfl)⟩

end MedAgent
